import Mathlib

/-!
Shallow embedding of `espnet2/nlu/espnet_model.py` (class `ESPnetNLUModel`).

Tensors are modelled extensionally: 2-D integer tensors as lists of rows,
real-valued tensors produced by neural sub-modules as a dynamic payload.
The pluggable neural sub-modules (frontend, pre-encoder, encoder,
post-encoder, token decoder, attention decoder) and the loss/accuracy
library functions are external collaborators; they are carried as
function-valued fields, so the orchestration logic of the model class is
captured exactly while the internals of the sub-modules stay arbitrary.
Scalar loss tensors and accuracies are rational numbers; Python exceptions
are `Except` errors.
-/

namespace ESPnetNLU

/-- A 2-D integer tensor of shape (Batch, Length), as a list of rows. -/
abbrev Mat := List (List Int)

/-- An integer length vector of shape (Batch,). -/
abbrev Lens := List Nat

/-- A dynamic tensor value: either a 2-D integer tensor (token ids) or a
3-D real tensor (Batch, Length, Dim) produced by a neural sub-module. -/
inductive Tens where
  | mat (m : Mat)
  | t3 (t : List (List (List Rat)))
deriving DecidableEq, Repr

/-- Shape accessor size(0): the batch dimension. -/
def Tens.batch : Tens → Nat
  | .mat m => m.length
  | .t3 t => t.length

/-- Shape accessor size(1): the length dimension (torch tensors are
rectangular, so the length of the first row is the common one). -/
def Tens.size1 : Tens → Nat
  | .mat m => (m.headD []).length
  | .t3 t => (t.headD []).length

/-- Column truncation `x[:, :L]`. -/
def truncCols (m : Mat) (L : Nat) : Mat := m.map (fun r => r.take L)

/-- Maximum entry of a length vector, `lengths.max()`. -/
def lensMax (l : Lens) : Nat := l.foldr max 0

/-- Right-pad every row to the longest row with the value `pad`
(`pad_list` from the espnet nets utilities). -/
def padList (ys : List (List Int)) (pad : Int) : Mat :=
  let L := (ys.map List.length).foldr max 0
  ys.map (fun y => y ++ List.replicate (L - y.length) pad)

/-- Modelled from the spec: `add_sos_eos`
(`espnet.nets.pytorch_backend.transformer.add_sos_eos`, imported by the
model but not under `src/`).  Each padded row is stripped of its
`ignore_id` entries; the decoder-input rows get `sos` prepended and are
re-padded with `eos`, the decoder-target rows get `eos` appended and are
re-padded with `ignore_id`. -/
def add_sos_eos (ys_pad : Mat) (sos eos ignore_id : Int) : Mat × Mat :=
  let ys := ys_pad.map (fun y => y.filter (fun t => t != ignore_id))
  let ys_in := ys.map (fun y => sos :: y)
  let ys_out := ys.map (fun y => y ++ [eos])
  (padList ys_in eos, padList ys_out ignore_id)

/-- The external collaborators handed to the constructor: the pluggable
neural sub-modules and the loss/accuracy library. The optional sub-modules
mirror the `Optional[...]` annotations of `__init__`; `decoder` and
`encoder` are mandatory there (`typeguard` rejects `None`). The encoder
returns a third component in the source which the caller discards, so it
is dropped here. `labelSmoothingLoss` stands for the `LabelSmoothingLoss`
class: applied to (size, padding_idx, smoothing, normalize_length) it
yields a criterion mapping (decoder_out, targets) to a scalar loss.
`th_accuracy` stands for the library accuracy function; it receives the
decoder output together with the vocabulary size of its flattened
`view(-1, vocab_size)`, the padded targets, and the `ignore_label`
argument. -/
structure Modules where
  frontend : Option (Mat → Lens → Tens × Lens)
  preencoder : Option (Tens → Lens → Tens × Lens)
  encoder : Tens → Lens → Tens × Lens
  postencoder : Option (Tens → Lens → Tens × Lens)
  decoder : Tens → Lens → Mat → Lens → Tens
  token_decoder : Option (Tens → Lens → Tens)
  labelSmoothingLoss : Nat → Int → Rat → Bool → (Tens → Mat → Rat)
  th_accuracy : Tens → Nat → Mat → Int → Rat

/-- The state of a constructed `ESPnetNLUModel`: the attributes that
`__init__` sets. The two criteria are `Option`s because the corresponding
attribute is only created inside the branch of `__init__` that enables it. -/
structure ESPnetNLUModel where
  sos : Int
  eos : Int
  vocab_size : Nat
  src_vocab_size : Nat
  ignore_id : Int
  token_list : List String
  token_loss_weight : Rat
  frontend : Option (Mat → Lens → Tens × Lens)
  preencoder : Option (Tens → Lens → Tens × Lens)
  encoder : Tens → Lens → Tens × Lens
  postencoder : Option (Tens → Lens → Tens × Lens)
  token_decoder : Option (Tens → Lens → Tens)
  criterion_token_nlu : Option (Tens → Mat → Rat)
  decoder : Option (Tens → Lens → Mat → Lens → Tens)
  criterion_att_nlu : Option (Tens → Mat → Rat)
  th_accuracy : Tens → Nat → Mat → Int → Rat
  extract_feats_in_collect_stats : Bool

/-- `ESPnetNLUModel.__init__`. The embedding-sharing flags
(`share_decoder_input_output_embed`, `share_encoder_decoder_input_embed`)
only mutate weights inside the external sub-modules and emit log lines, so
they do not appear in the state; `src_token_list`, `sym_space`, `sym_blank`
and the unused `MTErrorCalculator` are likewise dropped. -/
def init (env : Modules) (vocab_size : Nat) (token_list : List String)
    (token_loss_weight : Rat) (src_vocab_size : Nat) (ignore_id : Int)
    (lsm_weight : Rat) (length_normalized_loss : Bool)
    (extract_feats_in_collect_stats : Bool) : ESPnetNLUModel :=
  { sos := (vocab_size : Int) - 1
    eos := (vocab_size : Int) - 1
    vocab_size := vocab_size
    src_vocab_size := src_vocab_size
    ignore_id := ignore_id
    token_list := token_list
    token_loss_weight := token_loss_weight
    frontend := env.frontend
    preencoder := env.preencoder
    encoder := env.encoder
    postencoder := env.postencoder
    token_decoder := if 0 < token_loss_weight then env.token_decoder else none
    criterion_token_nlu :=
      if 0 < token_loss_weight then
        some (env.labelSmoothingLoss vocab_size ignore_id lsm_weight true)
      else none
    decoder := if token_loss_weight < 1 then some env.decoder else none
    criterion_att_nlu :=
      if token_loss_weight < 1 then
        some (env.labelSmoothingLoss vocab_size ignore_id lsm_weight
          length_normalized_loss)
      else none
    th_accuracy := env.th_accuracy
    extract_feats_in_collect_stats := extract_feats_in_collect_stats }

/-- The value bound to the Python variable `loss` in `forward`: it starts
as the plain integer literal `0` and becomes a scalar tensor as soon as a
branch loss is added to it. -/
inductive LossV where
  | intLit (n : Int)
  | tensor (x : Rat)
deriving DecidableEq, Repr

/-- Adding a scalar loss tensor to the running `loss` value always yields
a tensor (int + tensor promotes in torch). -/
def LossV.addT : LossV → Rat → LossV
  | .intLit n, x => .tensor ((n : Rat) + x)
  | .tensor v, x => .tensor (v + x)

/-- The method call `loss.detach()`: defined on tensors, an
`AttributeError` on the plain Python int. -/
def LossV.detach : LossV → Option Rat
  | .intLit _ => none
  | .tensor v => some v

/-- The `stats` dictionary built by `forward`: insertion-ordered key/value
pairs of detached scalar losses and accuracies. -/
abbrev Stats := List (String × Rat)

/-- The Python exceptions the methods can raise. -/
inductive Err where
  | assertBatch
  | assertEncode
  | attrCalc
  | attrDetach
  | nameErr
deriving DecidableEq, Repr

/-- Modelled from the spec: `force_gatherable`
(`espnet2.torch_utils.device_funcs`, imported by the model but not under
`src/`) supports multi-device gathering by moving the loss and stats to
the device of the loss and turning scalars (here the integer batch size)
into tensors; it preserves every value, so at this level of abstraction it
returns the triple unchanged. -/
def force_gatherable (loss : Rat) (stats : Stats) (weight : Nat) :
    Rat × Stats × Nat :=
  (loss, stats, weight)

/-- Outcome of one optional loss branch of `forward`: skipped when the
branch decoder attribute is `None`, otherwise the branch loss/accuracy
pair of the `_calc_...` helper (whose own failure propagates as an
exception). -/
def branchRes {α : Type} (dec : Option α) (res : Option (Rat × Rat)) :
    Except Err (Option (Rat × Rat)) :=
  match dec with
  | none => .ok none
  | some _ =>
    match res with
    | some la => .ok (some la)
    | none => .error .attrCalc

namespace ESPnetNLUModel

/-- `ESPnetNLUModel._extract_feats`. -/
def extract_feats (m : ESPnetNLUModel) (src_text : Mat)
    (src_text_lengths : Lens) : Tens × Lens :=
  let src_text := truncCols src_text (lensMax src_text_lengths)
  let src_text := (add_sos_eos src_text m.sos m.eos m.ignore_id).1
  let src_text_lengths := src_text_lengths.map (fun n => n + 1)
  match m.frontend with
  | some f => f src_text src_text_lengths
  | none => (.mat src_text, src_text_lengths)

/-- `ESPnetNLUModel.encode`: feature extraction, optional pre-encoder,
encoder, optional post-encoder. The two trailing `assert` statements are
modelled as returning `none` (an `AssertionError`) when violated. -/
def encode (m : ESPnetNLUModel) (src_text : Mat) (src_text_lengths : Lens) :
    Option (Tens × Lens) :=
  let fl := m.extract_feats src_text src_text_lengths
  let fl := match m.preencoder with
    | some p => p fl.1 fl.2
    | none => fl
  let el := m.encoder fl.1 fl.2
  let el := match m.postencoder with
    | some p => p el.1 el.2
    | none => el
  if el.1.batch = src_text.length ∧ el.1.size1 ≤ lensMax el.2 then
    some el
  else
    none

/-- `ESPnetNLUModel._calc_nlu_token_loss`. Returns `none` when
`self.token_decoder` or `self.criterion_token_nlu` is unusable (a
`TypeError`/`AttributeError` in Python); `forward` only enters this branch
when `self.token_decoder` is not `None`. -/
def calc_nlu_token_loss (m : ESPnetNLUModel) (encoder_out : Tens)
    (encoder_out_lens : Lens) (ys_pad : Mat) (ys_pad_lens : Lens) :
    Option (Rat × Rat) := do
  let td ← m.token_decoder
  let crit ← m.criterion_token_nlu
  let ys_in_pad := (add_sos_eos ys_pad m.sos m.eos m.ignore_id).1
  let _ys_in_lens := ys_pad_lens.map (fun n => n + 1)
  let decoder_out := td encoder_out encoder_out_lens
  let loss_token := crit decoder_out ys_in_pad
  let acc_token := m.th_accuracy decoder_out m.vocab_size ys_in_pad m.sos
  pure (loss_token, acc_token)

/-- `ESPnetNLUModel._calc_nlu_att_loss`. Returns `none` when
`self.decoder` or `self.criterion_att_nlu` is unusable; `forward` only
enters this branch when `self.decoder` is not `None`. -/
def calc_nlu_att_loss (m : ESPnetNLUModel) (encoder_out : Tens)
    (encoder_out_lens : Lens) (ys_pad : Mat) (ys_pad_lens : Lens) :
    Option (Rat × Rat) := do
  let d ← m.decoder
  let crit ← m.criterion_att_nlu
  let sosEos := add_sos_eos ys_pad m.sos m.eos m.ignore_id
  let ys_in_pad := sosEos.1
  let ys_out_pad := sosEos.2
  let ys_in_lens := ys_pad_lens.map (fun n => n + 1)
  let decoder_out := d encoder_out encoder_out_lens ys_in_pad ys_in_lens
  let loss_att := crit decoder_out ys_out_pad
  let acc_att := m.th_accuracy decoder_out m.vocab_size ys_out_pad m.ignore_id
  pure (loss_att, acc_att)

/-- The condition guarding `import pdb;pdb.set_trace()` on line 160 of
`forward`: the mean of `src_text_lengths` (the division of the sum by the
batch size, exact for a nonempty batch) differs from its first entry.
When it holds, `forward` suspends into the interactive debugger at that
point; the dataflow of the rest of the method is unaffected once
execution resumes. -/
def pdbTriggered (src_text_lengths : Lens) : Bool :=
  decide (mkRat (src_text_lengths.sum : Int) src_text_lengths.length ≠
    ((src_text_lengths.headD 0 : Int) : Rat))

end ESPnetNLUModel

/-- A value of the dictionary `collect_feats` returns: the feature tensor
under "feats", the length vector under "feats_lengths". -/
inductive FeatV where
  | tens (t : Tens)
  | lens (l : Lens)
deriving DecidableEq, Repr

namespace ESPnetNLUModel

/-- `ESPnetNLUModel.collect_feats`. The dictionary is a key/value list so
that the set of keys is an observable; the `text`/`text_lengths` arguments
of the source are unused by its body and omitted. -/
def collect_feats (m : ESPnetNLUModel) (src_text : Mat)
    (src_text_lengths : Lens) : List (String × FeatV) :=
  if m.extract_feats_in_collect_stats then
    let fl := m.extract_feats src_text src_text_lengths
    [("feats", .tens fl.1), ("feats_lengths", .lens fl.2)]
  else
    [("feats", .tens (.mat src_text)), ("feats_lengths", .lens src_text_lengths)]

/-- `ESPnetNLUModel.forward`: batch-size asserts, data-parallel truncation
of `text` and `src_text`, the `pdb` guard (see `pdbTriggered`; it only
suspends, so it does not change the dataflow), `encode`, the two optional
loss branches, the stats dictionary, `loss.detach()` and
`force_gatherable`. Keyword arguments (`utt_id`) are ignored by the
source, and the `is not None` guards on the branch losses always take
their detach arm because the criteria return tensors. -/
def forward (m : ESPnetNLUModel) (text : Mat) (text_lengths : Lens)
    (src_text : Mat) (src_text_lengths : Lens) :
    Except Err (Rat × Stats × Nat) :=
  if text.length = text_lengths.length ∧
      text_lengths.length = src_text.length ∧
      src_text.length = src_text_lengths.length then
    let batch_size := src_text.length
    let text := truncCols text (lensMax text_lengths)
    let src_text := truncCols src_text (lensMax src_text_lengths)
    match m.encode src_text src_text_lengths with
    | none => .error .assertEncode
    | some (encoder_out, encoder_out_lens) =>
      match branchRes m.token_decoder
          (m.calc_nlu_token_loss encoder_out encoder_out_lens
            text text_lengths) with
      | .error e => .error e
      | .ok tokRes =>
        match branchRes m.decoder
            (m.calc_nlu_att_loss encoder_out encoder_out_lens
              text text_lengths) with
        | .error e => .error e
        | .ok attRes =>
          let stats : Stats :=
            (match tokRes with
              | some la => [("token_loss", la.1), ("token_acc", la.2)]
              | none => []) ++
            (match attRes with
              | some la => [("att_loss", la.1), ("att_acc", la.2)]
              | none => [])
          let loss :=
            match tokRes with
            | some la => (LossV.intLit 0).addT (la.1 * m.token_loss_weight)
            | none => LossV.intLit 0
          let loss :=
            match attRes with
            | some la => loss.addT (la.1 * (1 - m.token_loss_weight))
            | none => loss
          match loss.detach with
          | none => .error .attrDetach
          | some lossD =>
            let stats := stats ++ [("loss", lossD)]
            let accE : Except Err Rat :=
              match m.decoder with
              | some _ =>
                match attRes with
                | some la => .ok la.2
                | none => .error .nameErr
              | none =>
                match tokRes with
                | some la => .ok la.2
                | none => .error .nameErr
            match accE with
            | .error e => .error e
            | .ok acc =>
              let stats := stats ++ [("acc", acc)]
              .ok (force_gatherable lossD stats batch_size)
  else
    .error .assertBatch

end ESPnetNLUModel

/-- Apply an optional pipeline stage: a missing stage passes its input
through unchanged. -/
def stageOpt (s : Option (Tens → Lens → Tens × Lens)) (x : Tens × Lens) :
    Tens × Lens :=
  match s with
  | some p => p x.1 x.2
  | none => x

-- Decidable equality of method results, for evaluating the model on
-- closed inputs.
deriving instance DecidableEq for Except

/-- A concrete token decoder for evaluating the model on closed inputs. -/
def tdW : Tens → Lens → Tens := fun _ _ => .mat []

/-- A concrete instantiation of the external collaborators for evaluating
the model on closed inputs: identity encoder, constant decoders, a
criterion that tells the two branches apart through its normalize_length
argument, and an accuracy function that reports the ignore_label it
received. -/
def envW : Modules where
  frontend := none
  preencoder := none
  encoder := fun t l => (t, l)
  postencoder := none
  decoder := fun _ _ _ _ => .mat []
  token_decoder := some tdW
  labelSmoothingLoss := fun _ _ _ nl _ _ => if nl then 3 else 5
  th_accuracy := fun _ _ _ ig => (ig : Rat)

/-- A concrete model with both branches enabled (token_loss_weight 1/2). -/
def mW : ESPnetNLUModel :=
  init envW 4 [] (mkRat 1 2) 0 (-1) 0 false true

/-- The concrete model `mW` with deferred feature extraction disabled. -/
def mWF : ESPnetNLUModel :=
  init envW 4 [] (mkRat 1 2) 0 (-1) 0 false false

/-- The stats dictionary produced by the concrete model `mW` on the
closed input used by the witnesses. -/
def statsW : Stats :=
  [("token_loss", 3), ("token_acc", 3), ("att_loss", 5), ("att_acc", -1),
    ("loss", 4), ("acc", -1)]

/-- Inverting a successful optional branch: either the branch decoder was
absent and the branch was skipped, or it was present and the branch
produced its loss/accuracy pair. -/
theorem branchRes_ok {α : Type} {dec : Option α} {res out : Option (Rat × Rat)}
    (h : branchRes dec res = .ok out) :
    (dec = none ∧ out = none) ∨ (dec.isSome ∧ res = out ∧ out.isSome) := by
  cases dec with
  | none =>
    left
    simp only [branchRes] at h
    injection h with h
    exact ⟨rfl, h.symm⟩
  | some d =>
    right
    cases res with
    | none => simp [branchRes] at h
    | some la =>
      simp only [branchRes] at h
      injection h with h
      subst h
      simp

/-- Inversion of a normally-returning `forward` call: the batch asserts
passed, the weight component is the batch size, the encoder ran on the
truncated source text, and loss and stats decompose according to which of
the two branches were enabled. -/
theorem forward_ok_cases {m : ESPnetNLUModel} {text : Mat}
    {text_lengths : Lens} {src_text : Mat} {src_text_lengths : Lens}
    {loss : Rat} {stats : Stats} {w : Nat}
    (h : m.forward text text_lengths src_text src_text_lengths =
      .ok (loss, stats, w)) :
    (text.length = text_lengths.length ∧
      text_lengths.length = src_text.length ∧
      src_text.length = src_text_lengths.length) ∧
    w = src_text.length ∧
    ∃ eo eol, m.encode (truncCols src_text (lensMax src_text_lengths))
        src_text_lengths = some (eo, eol) ∧
      ((∃ lt ta la aa,
          m.token_decoder.isSome ∧ m.decoder.isSome ∧
          m.calc_nlu_token_loss eo eol (truncCols text (lensMax text_lengths))
            text_lengths = some (lt, ta) ∧
          m.calc_nlu_att_loss eo eol (truncCols text (lensMax text_lengths))
            text_lengths = some (la, aa) ∧
          loss = lt * m.token_loss_weight + la * (1 - m.token_loss_weight) ∧
          stats = [("token_loss", lt), ("token_acc", ta),
            ("att_loss", la), ("att_acc", aa), ("loss", loss), ("acc", aa)]) ∨
       (∃ lt ta,
          m.token_decoder.isSome ∧ m.decoder = none ∧
          m.calc_nlu_token_loss eo eol (truncCols text (lensMax text_lengths))
            text_lengths = some (lt, ta) ∧
          loss = lt * m.token_loss_weight ∧
          stats = [("token_loss", lt), ("token_acc", ta),
            ("loss", loss), ("acc", ta)]) ∨
       (∃ la aa,
          m.token_decoder = none ∧ m.decoder.isSome ∧
          m.calc_nlu_att_loss eo eol (truncCols text (lensMax text_lengths))
            text_lengths = some (la, aa) ∧
          loss = la * (1 - m.token_loss_weight) ∧
          stats = [("att_loss", la), ("att_acc", aa),
            ("loss", loss), ("acc", aa)])) := by
  simp only [ESPnetNLUModel.forward] at h
  split at h
  case isFalse hc => simp at h
  case isTrue hc =>
  refine ⟨hc, ?_⟩
  split at h
  case h_1 => simp at h
  case h_2 eo eol henc =>
  split at h
  case h_1 => simp at h
  case h_2 tokRes htok =>
  split at h
  case h_1 => simp at h
  case h_2 attRes hatt =>
  rcases branchRes_ok htok with ⟨htd, rfl⟩ | ⟨htd, hcalcT, htsT⟩ <;>
    rcases branchRes_ok hatt with ⟨had, rfl⟩ | ⟨had, hcalcA, htsA⟩
  · -- neither branch ran: loss stays an int and detach raises
    simp [LossV.detach, LossV.addT] at h
  · -- attention branch only
    rcases Option.isSome_iff_exists.mp htsA with ⟨⟨la, aa⟩, rfl⟩
    rcases Option.isSome_iff_exists.mp had with ⟨d, hd⟩
    simp only [hd, LossV.addT, LossV.detach, force_gatherable,
      Int.cast_zero, zero_add] at h
    simp only [Except.ok.injEq, Prod.mk.injEq] at h
    obtain ⟨hl, hs, hw⟩ := h
    refine ⟨hw.symm, eo, eol, henc, Or.inr (Or.inr ⟨la, aa, htd, by simp [hd],
      hcalcA, hl.symm, ?_⟩)⟩
    rw [← hs, hl]
    simp
  · -- token branch only
    rcases Option.isSome_iff_exists.mp htsT with ⟨⟨lt, ta⟩, rfl⟩
    simp only [had, LossV.addT, LossV.detach, force_gatherable,
      Int.cast_zero, zero_add] at h
    simp only [Except.ok.injEq, Prod.mk.injEq] at h
    obtain ⟨hl, hs, hw⟩ := h
    refine ⟨hw.symm, eo, eol, henc, Or.inr (Or.inl ⟨lt, ta, htd, had,
      hcalcT, hl.symm, ?_⟩)⟩
    rw [← hs, hl]
    simp
  · -- both branches
    rcases Option.isSome_iff_exists.mp htsT with ⟨⟨lt, ta⟩, rfl⟩
    rcases Option.isSome_iff_exists.mp htsA with ⟨⟨la, aa⟩, rfl⟩
    rcases Option.isSome_iff_exists.mp had with ⟨d, hd⟩
    simp only [hd, LossV.addT, LossV.detach, force_gatherable,
      Int.cast_zero, zero_add] at h
    simp only [Except.ok.injEq, Prod.mk.injEq] at h
    obtain ⟨hl, hs, hw⟩ := h
    refine ⟨hw.symm, eo, eol, henc, Or.inl ⟨lt, ta, la, aa, htd, by simp [hd],
      hcalcT, hcalcA, hl.symm, ?_⟩⟩
    rw [← hs, hl]
    simp

/-- C1: for every forward call on a model constructed with
0 < token_loss_weight < 1 and a supplied token_decoder that returns
normally, the total loss equals
loss_nlu_token * token_loss_weight + loss_nlu_att * (1 - token_loss_weight),
where the two branch losses are the results of _calc_nlu_token_loss and
_calc_nlu_att_loss on the same encoder output and targets. -/
theorem forward_blends_losses_with_mixing_weight
    (env : Modules) (V : Nat) (tl0 : List String) (w : Rat) (sv : Nat)
    (ii : Int) (lsm : Rat) (ln ef : Bool) (td : Tens → Lens → Tens)
    (text : Mat) (text_lengths : Lens) (src_text : Mat)
    (src_text_lengths : Lens) (loss : Rat) (stats : Stats) (wt : Nat)
    (hw0 : 0 < w) (hw1 : w < 1) (htd : env.token_decoder = some td)
    (h : (init env V tl0 w sv ii lsm ln ef).forward text text_lengths
      src_text src_text_lengths = .ok (loss, stats, wt)) :
    ∃ eo eol lt ta la aa,
      (init env V tl0 w sv ii lsm ln ef).encode
        (truncCols src_text (lensMax src_text_lengths)) src_text_lengths =
        some (eo, eol) ∧
      (init env V tl0 w sv ii lsm ln ef).calc_nlu_token_loss eo eol
        (truncCols text (lensMax text_lengths)) text_lengths = some (lt, ta) ∧
      (init env V tl0 w sv ii lsm ln ef).calc_nlu_att_loss eo eol
        (truncCols text (lensMax text_lengths)) text_lengths = some (la, aa) ∧
      loss = lt * w + la * (1 - w) := by
  obtain ⟨-, -, eo, eol, henc, hcase⟩ := forward_ok_cases h
  have hwm : (init env V tl0 w sv ii lsm ln ef).token_loss_weight = w := by
    simp [init]
  have hdec : (init env V tl0 w sv ii lsm ln ef).decoder =
      some env.decoder := by
    simp [init, hw1]
  have htdm : (init env V tl0 w sv ii lsm ln ef).token_decoder = some td := by
    simp [init, hw0, htd]
  rcases hcase with
      ⟨lt, ta, la, aa, -, -, hct, hca, hl, -⟩ |
      ⟨lt, ta, -, hd, -, -, -⟩ |
      ⟨la, aa, htdn, -, -, -, -⟩
  · exact ⟨eo, eol, lt, ta, la, aa, henc, hct, hca, by rw [hl, hwm]⟩
  · rw [hdec] at hd
    exact absurd hd (by simp)
  · rw [htdm] at htdn
    exact absurd htdn (by simp)

-- Witness for C1 at a concrete model and input.
unseal Rat.mul Rat.add Rat.sub in
theorem forward_blends_losses_with_mixing_weight_witness :
    ∃ eo eol lt ta la aa,
      (init envW 4 [] (mkRat 1 2) 0 (-1) 0 false true).encode
        (truncCols [[2]] (lensMax [1])) [1] = some (eo, eol) ∧
      (init envW 4 [] (mkRat 1 2) 0 (-1) 0 false true).calc_nlu_token_loss
        eo eol (truncCols [[1]] (lensMax [1])) [1] = some (lt, ta) ∧
      (init envW 4 [] (mkRat 1 2) 0 (-1) 0 false true).calc_nlu_att_loss
        eo eol (truncCols [[1]] (lensMax [1])) [1] = some (la, aa) ∧
      (4 : Rat) = lt * mkRat 1 2 + la * (1 - mkRat 1 2) :=
  forward_blends_losses_with_mixing_weight envW 4 [] (mkRat 1 2) 0 (-1) 0
    false true tdW [[1]] [1] [[2]] [1] 4
    [("token_loss", 3), ("token_acc", 3), ("att_loss", 5), ("att_acc", -1),
      ("loss", 4), ("acc", -1)] 1
    (by decide) (by decide) rfl (by decide)

/-- The token-decoder attribute of a constructed model is present exactly
when the weight enables the branch and a token decoder was supplied. -/
theorem init_token_decoder_isSome (env : Modules) (V : Nat)
    (tl0 : List String) (w : Rat) (sv : Nat) (ii : Int) (lsm : Rat)
    (ln ef : Bool) :
    (init env V tl0 w sv ii lsm ln ef).token_decoder.isSome ↔
      0 < w ∧ env.token_decoder.isSome := by
  by_cases h0 : 0 < w <;> simp [init, h0]

/-- The attention-decoder attribute of a constructed model is present
exactly when the weight leaves room for the attention branch. -/
theorem init_decoder_isSome (env : Modules) (V : Nat) (tl0 : List String)
    (w : Rat) (sv : Nat) (ii : Int) (lsm : Rat) (ln ef : Bool) :
    (init env V tl0 w sv ii lsm ln ef).decoder.isSome ↔ w < 1 := by
  by_cases h1 : w < 1 <;> simp [init, h1]

/-- C2: the constructor nulls token_decoder when token_loss_weight is not
positive and nulls decoder when token_loss_weight is at least 1; a
normally-returning forward call runs the token branch (observable through
the token_loss stat) exactly when the weight is positive and a token
decoder was supplied, and runs the attention branch (observable through
the att_loss stat) exactly when the weight is below 1 — so with
0 < token_loss_weight < 1 and a token decoder both run on the same call. -/
theorem branch_selection_matches_token_loss_weight
    (env : Modules) (V : Nat) (tl0 : List String) (w : Rat) (sv : Nat)
    (ii : Int) (lsm : Rat) (ln ef : Bool) :
    ((w ≤ 0 → (init env V tl0 w sv ii lsm ln ef).token_decoder = none) ∧
     (0 < w → (init env V tl0 w sv ii lsm ln ef).token_decoder =
        env.token_decoder) ∧
     (1 ≤ w → (init env V tl0 w sv ii lsm ln ef).decoder = none) ∧
     (w < 1 → (init env V tl0 w sv ii lsm ln ef).decoder =
        some env.decoder)) ∧
    ∀ text text_lengths src_text src_text_lengths loss stats wt,
      (init env V tl0 w sv ii lsm ln ef).forward text text_lengths src_text
        src_text_lengths = .ok (loss, stats, wt) →
      ((stats.lookup "token_loss").isSome ↔
        0 < w ∧ env.token_decoder.isSome) ∧
      ((stats.lookup "att_loss").isSome ↔ w < 1) := by
  refine ⟨⟨fun hw => by simp [init, not_lt.mpr hw],
    fun hw => by simp [init, hw],
    fun hw => by simp [init, not_lt.mpr hw],
    fun hw => by simp [init, hw]⟩, ?_⟩
  intro text text_lengths src_text src_text_lengths loss stats wt h
  obtain ⟨-, -, eo, eol, -, hcase⟩ := forward_ok_cases h
  rcases hcase with
      ⟨lt, ta, la, aa, htd, had, -, -, -, hs⟩ |
      ⟨lt, ta, htd, had, -, -, hs⟩ |
      ⟨la, aa, htd, had, -, -, hs⟩
  · rw [init_token_decoder_isSome] at htd
    rw [init_decoder_isSome] at had
    subst hs
    simp [List.lookup, htd, had]
  · rw [init_token_decoder_isSome] at htd
    have had2 : ¬ w < 1 := by
      intro h1
      rw [(init_decoder_isSome env V tl0 w sv ii lsm ln ef).symm] at h1
      rw [had] at h1
      simp at h1
    subst hs
    simp [List.lookup, htd, had2]
  · rw [init_decoder_isSome] at had
    have htd2 : ¬ (0 < w ∧ env.token_decoder.isSome) := by
      intro h1
      rw [(init_token_decoder_isSome env V tl0 w sv ii lsm ln ef).symm] at h1
      rw [htd] at h1
      simp at h1
    subst hs
    simp [List.lookup, htd2, had]

-- Witness for C2 at a concrete model and input.
unseal Rat.mul Rat.add Rat.sub in
theorem branch_selection_matches_token_loss_weight_witness :
    (init envW 4 [] (mkRat 1 2) 0 (-1) 0 false true).token_decoder =
      envW.token_decoder ∧
    (init envW 4 [] (mkRat 1 2) 0 (-1) 0 false true).decoder =
      some envW.decoder ∧
    (((statsW.lookup "token_loss").isSome ↔
        (0 : Rat) < mkRat 1 2 ∧ envW.token_decoder.isSome) ∧
      ((statsW.lookup "att_loss").isSome ↔ mkRat 1 2 < 1)) :=
  ⟨(branch_selection_matches_token_loss_weight envW 4 [] (mkRat 1 2) 0 (-1)
      0 false true).1.2.1 (by decide),
   (branch_selection_matches_token_loss_weight envW 4 [] (mkRat 1 2) 0 (-1)
      0 false true).1.2.2.2 (by decide),
   (branch_selection_matches_token_loss_weight envW 4 [] (mkRat 1 2) 0 (-1)
      0 false true).2 [[1]] [1] [[2]] [1] 4 statsW 1 (by decide)⟩


/-- C3: after a normally-returning forward call, the stats dictionary
holds exactly the keys of the branches that ran followed by "loss" and
"acc"; "loss" holds the (detached) total loss, "acc" holds the
attention-branch accuracy when that branch ran and the token-branch
accuracy otherwise, and each branch that ran contributed its detached
loss and its accuracy under its own two keys; no other keys occur. -/
theorem forward_stats_keys_and_values {m : ESPnetNLUModel} {text : Mat}
    {text_lengths : Lens} {src_text : Mat} {src_text_lengths : Lens}
    {loss : Rat} {stats : Stats} {wt : Nat}
    (h : m.forward text text_lengths src_text src_text_lengths =
      .ok (loss, stats, wt)) :
    stats.map Prod.fst =
      (if m.token_decoder.isSome then ["token_loss", "token_acc"] else []) ++
      (if m.decoder.isSome then ["att_loss", "att_acc"] else []) ++
      ["loss", "acc"] ∧
    stats.lookup "loss" = some loss ∧
    (m.decoder.isSome → stats.lookup "acc" = stats.lookup "att_acc") ∧
    (m.decoder = none → stats.lookup "acc" = stats.lookup "token_acc") ∧
    ∃ eo eol,
      m.encode (truncCols src_text (lensMax src_text_lengths))
        src_text_lengths = some (eo, eol) ∧
      (m.token_decoder.isSome →
        ∃ lt ta, m.calc_nlu_token_loss eo eol
            (truncCols text (lensMax text_lengths)) text_lengths =
            some (lt, ta) ∧
          stats.lookup "token_loss" = some lt ∧
          stats.lookup "token_acc" = some ta) ∧
      (m.decoder.isSome →
        ∃ la aa, m.calc_nlu_att_loss eo eol
            (truncCols text (lensMax text_lengths)) text_lengths =
            some (la, aa) ∧
          stats.lookup "att_loss" = some la ∧
          stats.lookup "att_acc" = some aa) := by
  obtain ⟨-, -, eo, eol, henc, hcase⟩ := forward_ok_cases h
  rcases hcase with
      ⟨lt, ta, la, aa, htd, had, hct, hca, hl, hs⟩ |
      ⟨lt, ta, htd, had, hct, hl, hs⟩ |
      ⟨la, aa, htd, had, hca, hl, hs⟩ <;> subst hs
  · refine ⟨by simp [htd, had], by simp [List.lookup], ?_, ?_, eo, eol,
      henc, ?_, ?_⟩
    · intro _
      simp [List.lookup]
    · intro hd
      rw [hd] at had
      simp at had
    · intro _
      exact ⟨lt, ta, hct, by simp [List.lookup], by simp [List.lookup]⟩
    · intro _
      exact ⟨la, aa, hca, by simp [List.lookup], by simp [List.lookup]⟩
  · refine ⟨by simp [htd, had], by simp [List.lookup], ?_, ?_, eo, eol,
      henc, ?_, ?_⟩
    · intro hd
      rw [had] at hd
      simp at hd
    · intro _
      simp [List.lookup]
    · intro _
      exact ⟨lt, ta, hct, by simp [List.lookup], by simp [List.lookup]⟩
    · intro hd
      rw [had] at hd
      simp at hd
  · refine ⟨by simp [htd, had], by simp [List.lookup], ?_, ?_, eo, eol,
      henc, ?_, ?_⟩
    · intro _
      simp [List.lookup]
    · intro hd
      rw [hd] at had
      simp at had
    · intro htd2
      rw [htd] at htd2
      simp at htd2
    · intro _
      exact ⟨la, aa, hca, by simp [List.lookup], by simp [List.lookup]⟩

-- Witness for C3 at a concrete model and input.
unseal Rat.mul Rat.add Rat.sub in
theorem forward_stats_keys_and_values_witness :
    statsW.map Prod.fst =
      (if mW.token_decoder.isSome then ["token_loss", "token_acc"]
        else []) ++
      (if mW.decoder.isSome then ["att_loss", "att_acc"] else []) ++
      ["loss", "acc"] ∧
    statsW.lookup "loss" = some 4 ∧
    (mW.decoder.isSome → statsW.lookup "acc" = statsW.lookup "att_acc") ∧
    (mW.decoder = none → statsW.lookup "acc" = statsW.lookup "token_acc") ∧
    ∃ eo eol,
      mW.encode (truncCols [[2]] (lensMax [1])) [1] = some (eo, eol) ∧
      (mW.token_decoder.isSome →
        ∃ lt ta, mW.calc_nlu_token_loss eo eol
            (truncCols [[1]] (lensMax [1])) [1] = some (lt, ta) ∧
          statsW.lookup "token_loss" = some lt ∧
          statsW.lookup "token_acc" = some ta) ∧
      (mW.decoder.isSome →
        ∃ la aa, mW.calc_nlu_att_loss eo eol
            (truncCols [[1]] (lensMax [1])) [1] = some (la, aa) ∧
          statsW.lookup "att_loss" = some la ∧
          statsW.lookup "att_acc" = some aa) :=
  @forward_stats_keys_and_values mW [[1]] [1] [[2]] [1] 4 statsW 1 (by decide)

/-- C4: collect_feats returns a dictionary with exactly the keys "feats"
and "feats_lengths"; with extract_feats_in_collect_stats = True they hold
the result of _extract_feats on (src_text, src_text_lengths), and with
False they hold the input tensors themselves unchanged, with no feature
extraction performed. -/
theorem collect_feats_spec (m : ESPnetNLUModel) (src_text : Mat)
    (src_text_lengths : Lens) :
    (m.collect_feats src_text src_text_lengths).map Prod.fst =
      ["feats", "feats_lengths"] ∧
    (m.extract_feats_in_collect_stats = true →
      m.collect_feats src_text src_text_lengths =
        [("feats", .tens (m.extract_feats src_text src_text_lengths).1),
         ("feats_lengths",
           .lens (m.extract_feats src_text src_text_lengths).2)]) ∧
    (m.extract_feats_in_collect_stats = false →
      m.collect_feats src_text src_text_lengths =
        [("feats", .tens (.mat src_text)),
         ("feats_lengths", .lens src_text_lengths)]) := by
  by_cases hf : m.extract_feats_in_collect_stats <;>
    simp [ESPnetNLUModel.collect_feats, hf]

-- Witness for C4 at a concrete model (deferred extraction disabled) and
-- input.
theorem collect_feats_spec_witness :
    (mWF.collect_feats [[2]] [1]).map Prod.fst =
      ["feats", "feats_lengths"] ∧
    (mWF.extract_feats_in_collect_stats = true →
      mWF.collect_feats [[2]] [1] =
        [("feats", .tens (mWF.extract_feats [[2]] [1]).1),
         ("feats_lengths", .lens (mWF.extract_feats [[2]] [1]).2)]) ∧
    (mWF.extract_feats_in_collect_stats = false →
      mWF.collect_feats [[2]] [1] =
        [("feats", .tens (.mat [[2]])), ("feats_lengths", .lens [1])]) :=
  collect_feats_spec mWF [[2]] [1]

/-- The composition that `encode` performs when it returns normally:
helper equation relating the method to the staged pipeline. -/
theorem encode_eq_pipeline (m : ESPnetNLUModel) (src_text : Mat)
    (src_text_lengths : Lens) :
    m.encode src_text src_text_lengths =
      (if (stageOpt m.postencoder
            (m.encoder
              (stageOpt m.preencoder
                (m.extract_feats src_text src_text_lengths)).1
              (stageOpt m.preencoder
                (m.extract_feats src_text src_text_lengths)).2)).1.batch =
          src_text.length ∧
        (stageOpt m.postencoder
            (m.encoder
              (stageOpt m.preencoder
                (m.extract_feats src_text src_text_lengths)).1
              (stageOpt m.preencoder
                (m.extract_feats src_text src_text_lengths)).2)).1.size1 ≤
          lensMax (stageOpt m.postencoder
            (m.encoder
              (stageOpt m.preencoder
                (m.extract_feats src_text src_text_lengths)).1
              (stageOpt m.preencoder
                (m.extract_feats src_text src_text_lengths)).2)).2 then
        some (stageOpt m.postencoder
          (m.encoder
            (stageOpt m.preencoder
              (m.extract_feats src_text src_text_lengths)).1
            (stageOpt m.preencoder
              (m.extract_feats src_text src_text_lengths)).2))
      else none) := by
  cases hpre : m.preencoder <;> cases hpost : m.postencoder <;>
    simp [ESPnetNLUModel.encode, stageOpt, hpre, hpost]

/-- C5: a normally-returning encode call composes feature extraction, the
optional pre-encoder, the encoder and the optional post-encoder in that
fixed order; a missing optional stage passes its input through unchanged
(stageOpt none is the identity), and the batch dimension of the returned
encoder output equals that of src_text. -/
theorem encode_pipeline_order (m : ESPnetNLUModel) (src_text : Mat)
    (src_text_lengths : Lens) (eo : Tens) (eol : Lens)
    (h : m.encode src_text src_text_lengths = some (eo, eol)) :
    (eo, eol) = stageOpt m.postencoder
      (m.encoder
        (stageOpt m.preencoder
          (m.extract_feats src_text src_text_lengths)).1
        (stageOpt m.preencoder
          (m.extract_feats src_text src_text_lengths)).2) ∧
    eo.batch = src_text.length ∧
    (∀ x, stageOpt none x = x) := by
  rw [encode_eq_pipeline] at h
  split at h
  case isFalse => simp at h
  case isTrue hc =>
    injection h with h
    rw [h] at hc
    exact ⟨h.symm, hc.1, fun x => rfl⟩

-- Witness for C5 at a concrete model and input.
theorem encode_pipeline_order_witness :
    ((Tens.mat [[3, 2]], ([2] : Lens)) = stageOpt mW.postencoder
      (mW.encoder
        (stageOpt mW.preencoder (mW.extract_feats [[2]] [1])).1
        (stageOpt mW.preencoder (mW.extract_feats [[2]] [1])).2)) ∧
    (Tens.mat [[3, 2]]).batch = ([[2]] : Mat).length ∧
    (∀ x, stageOpt none x = x) :=
  encode_pipeline_order mW [[2]] [1] (.mat [[3, 2]]) [2] (by decide)

/-- Every decoder-input row produced by add_sos_eos starts with the sos
symbol. -/
theorem add_sos_eos_head (ys : Mat) (sos eos ii : Int) :
    ∀ r ∈ (add_sos_eos ys sos eos ii).1, r.head? = some sos := by
  intro r hr
  simp only [add_sos_eos, padList, List.map_map, List.mem_map,
    Function.comp] at hr
  obtain ⟨y, hy, rfl⟩ := hr
  simp

/-- C6: _extract_feats truncates src_text to the maximum source length,
passes it to add_sos_eos with sos = eos = vocab_size - 1 (so every
resulting row starts with that sos symbol), increments every length by 1,
and returns the frontend applied to the augmented input when a frontend
was supplied and the augmented text and lengths themselves otherwise. -/
theorem extract_feats_spec (env : Modules) (V : Nat) (tl0 : List String)
    (w : Rat) (sv : Nat) (ii : Int) (lsm : Rat) (ln ef : Bool)
    (src_text : Mat) (src_text_lengths : Lens) :
    (init env V tl0 w sv ii lsm ln ef).extract_feats src_text
        src_text_lengths =
      (match env.frontend with
        | some f => f
            (add_sos_eos (truncCols src_text (lensMax src_text_lengths))
              ((V : Int) - 1) ((V : Int) - 1) ii).1
            (src_text_lengths.map (fun n => n + 1))
        | none =>
          (.mat (add_sos_eos (truncCols src_text (lensMax src_text_lengths))
              ((V : Int) - 1) ((V : Int) - 1) ii).1,
            src_text_lengths.map (fun n => n + 1))) ∧
    ∀ r ∈ (add_sos_eos (truncCols src_text (lensMax src_text_lengths))
        ((V : Int) - 1) ((V : Int) - 1) ii).1,
      r.head? = some ((V : Int) - 1) := by
  constructor
  · cases hf : env.frontend <;>
      simp [ESPnetNLUModel.extract_feats, init, hf]
  · exact add_sos_eos_head _ _ _ _

-- Witness for C6 at a concrete model and input.
theorem extract_feats_spec_witness :
    (init envW 4 [] (mkRat 1 2) 0 (-1) 0 false true).extract_feats [[2]]
        [1] =
      (match envW.frontend with
        | some f => f
            (add_sos_eos (truncCols [[2]] (lensMax [1]))
              ((4 : Int) - 1) ((4 : Int) - 1) (-1)).1
            (([1] : Lens).map (fun n => n + 1))
        | none =>
          (.mat (add_sos_eos (truncCols [[2]] (lensMax [1]))
              ((4 : Int) - 1) ((4 : Int) - 1) (-1)).1,
            ([1] : Lens).map (fun n => n + 1))) ∧
    ∀ r ∈ (add_sos_eos (truncCols [[2]] (lensMax [1]))
        ((4 : Int) - 1) ((4 : Int) - 1) (-1)).1,
      r.head? = some ((4 : Int) - 1) :=
  extract_feats_spec envW 4 [] (mkRat 1 2) 0 (-1) 0 false true [[2]] [1]

/-- C7: a normally-returning forward call returns the triple produced by
force_gatherable applied to (loss, stats, batch_size), whose weight
component equals the batch size src_text.shape[0]. -/
theorem forward_weight_is_batch_size {m : ESPnetNLUModel} {text : Mat}
    {text_lengths : Lens} {src_text : Mat} {src_text_lengths : Lens}
    {loss : Rat} {stats : Stats} {wt : Nat}
    (h : m.forward text text_lengths src_text src_text_lengths =
      .ok (loss, stats, wt)) :
    (loss, stats, wt) = force_gatherable loss stats src_text.length ∧
    wt = src_text.length := by
  obtain ⟨-, hw, -⟩ := forward_ok_cases h
  exact ⟨by simp [force_gatherable, hw], hw⟩

-- Witness for C7 at a concrete model and input.
unseal Rat.mul Rat.add Rat.sub in
theorem forward_weight_is_batch_size_witness :
    (((4 : Rat), statsW, (1 : Nat)) =
      force_gatherable 4 statsW ([[2]] : Mat).length) ∧
    (1 : Nat) = ([[2]] : Mat).length :=
  @forward_weight_is_batch_size mW [[1]] [1] [[2]] [1] 4 statsW 1
    (by decide)

/-- Sum of a list all of whose entries are the same value. -/
theorem sum_const_of_all_eq {l : List Nat} {a : Nat} (h : ∀ x ∈ l, x = a) :
    l.sum = l.length * a := by
  induction l with
  | nil => simp
  | cons b t ih =>
    have hb : b = a := h b (by simp)
    have ht : ∀ x ∈ t, x = a := fun x hx => h x (by simp [hx])
    simp [hb, ih ht, Nat.succ_mul, Nat.add_comm]

/-- C8 counterexample: the batch with source lengths [2, 1, 3] is not of
uniform length, yet its mean equals its first entry, so it passes the pdb
guard of forward without interruption — uniformity is not what the guard
tests. -/
theorem pdb_guard_passes_nonuniform_batch :
    ESPnetNLUModel.pdbTriggered [2, 1, 3] = false ∧
    ¬ (∀ x ∈ ([2, 1, 3] : Lens), x = ([2, 1, 3] : Lens).headD 0) := by
  decide

/-- C8 (amended): the pdb guard suspends forward exactly when the mean of
src_text_lengths differs from its first entry; every nonempty batch of
uniform source length passes it without suspension, though some
non-uniform batches (mean equal to the first entry) pass as well. -/
theorem uniform_batches_pass_pdb_guard (l : Lens) (hne : l ≠ [])
    (hu : ∀ x ∈ l, x = l.headD 0) :
    ESPnetNLUModel.pdbTriggered l = false := by
  have hsum := sum_const_of_all_eq hu
  have hlen : (l.length : Rat) ≠ 0 := by
    simpa using fun hl => hne (List.length_eq_zero.mp hl)
  unfold ESPnetNLUModel.pdbTriggered
  rw [hsum]
  simp only [decide_eq_false_iff_not, ne_eq, not_not]
  rw [Rat.mkRat_eq_div]
  push_cast
  rw [mul_comm, mul_div_assoc, div_self hlen, mul_one]

-- Witness for the amended C8 at a concrete uniform batch.
theorem uniform_batches_pass_pdb_guard_witness :
    ESPnetNLUModel.pdbTriggered [2, 2, 2] = false :=
  uniform_batches_pass_pdb_guard [2, 2, 2] (by decide) (by decide)

/-- C9: a model constructed with token_loss_weight at least 1 and
token_decoder None has both branch attributes None, so forward never
returns normally: every call raises (on the path past the asserts, the
loss is still the plain int 0, whose missing detach method raises before
the undefined acc_nlu_token would be read). -/
theorem forward_raises_when_no_branch_enabled
    (env : Modules) (V : Nat) (tl0 : List String) (w : Rat) (sv : Nat)
    (ii : Int) (lsm : Rat) (ln ef : Bool)
    (hw : 1 ≤ w) (htd : env.token_decoder = none)
    (text : Mat) (text_lengths : Lens) (src_text : Mat)
    (src_text_lengths : Lens) :
    (init env V tl0 w sv ii lsm ln ef).token_decoder = none ∧
    (init env V tl0 w sv ii lsm ln ef).decoder = none ∧
    ∃ e, (init env V tl0 w sv ii lsm ln ef).forward text text_lengths
      src_text src_text_lengths = .error e := by
  have htd2 : (init env V tl0 w sv ii lsm ln ef).token_decoder = none := by
    by_cases h0 : 0 < w <;> simp [init, h0, htd]
  have hd2 : (init env V tl0 w sv ii lsm ln ef).decoder = none := by
    simp [init, not_lt.mpr hw]
  refine ⟨htd2, hd2, ?_⟩
  simp only [ESPnetNLUModel.forward, htd2, hd2, branchRes, LossV.detach]
  split
  · split
    · exact ⟨_, rfl⟩
    · exact ⟨_, rfl⟩
  · exact ⟨_, rfl⟩

-- Witness for C9 at a concrete model and input.
theorem forward_raises_when_no_branch_enabled_witness :
    (init { envW with token_decoder := none } 4 [] 1 0 (-1) 0 false
        true).token_decoder = none ∧
    (init { envW with token_decoder := none } 4 [] 1 0 (-1) 0 false
        true).decoder = none ∧
    ∃ e, (init { envW with token_decoder := none } 4 [] 1 0 (-1) 0 false
      true).forward [[1]] [1] [[2]] [1] = .error e :=
  forward_raises_when_no_branch_enabled { envW with token_decoder := none }
    4 [] 1 0 (-1) 0 false true (by decide) rfl [[1]] [1] [[2]] [1]

/-- C10: after construction sos and eos both equal vocab_size - 1, and
this single ID is what _extract_feats, _calc_nlu_token_loss and
_calc_nlu_att_loss all pass to add_sos_eos as both start and end symbol,
and what the token-branch accuracy receives as its ignore_label; the
attention-branch accuracy receives ignore_id there instead. -/
theorem sos_eos_vocab_invariant
    (env : Modules) (V : Nat) (tl0 : List String) (w : Rat) (sv : Nat)
    (ii : Int) (lsm : Rat) (ln ef : Bool) :
    (init env V tl0 w sv ii lsm ln ef).sos = (V : Int) - 1 ∧
    (init env V tl0 w sv ii lsm ln ef).eos = (V : Int) - 1 ∧
    (∀ src_text src_text_lengths,
      (init env V tl0 w sv ii lsm ln ef).extract_feats src_text
          src_text_lengths =
        (match env.frontend with
          | some f => f
              (add_sos_eos (truncCols src_text (lensMax src_text_lengths))
                ((V : Int) - 1) ((V : Int) - 1) ii).1
              (src_text_lengths.map (fun n => n + 1))
          | none =>
            (.mat (add_sos_eos
                (truncCols src_text (lensMax src_text_lengths))
                ((V : Int) - 1) ((V : Int) - 1) ii).1,
              src_text_lengths.map (fun n => n + 1)))) ∧
    (∀ eo eol ys yl,
      (init env V tl0 w sv ii lsm ln ef).calc_nlu_token_loss eo eol ys yl =
        (init env V tl0 w sv ii lsm ln ef).token_decoder.bind (fun td =>
          (init env V tl0 w sv ii lsm ln ef).criterion_token_nlu.bind
            (fun crit =>
              some (crit (td eo eol)
                  (add_sos_eos ys ((V : Int) - 1) ((V : Int) - 1) ii).1,
                env.th_accuracy (td eo eol) V
                  (add_sos_eos ys ((V : Int) - 1) ((V : Int) - 1) ii).1
                  ((V : Int) - 1))))) ∧
    (∀ eo eol ys yl,
      (init env V tl0 w sv ii lsm ln ef).calc_nlu_att_loss eo eol ys yl =
        (init env V tl0 w sv ii lsm ln ef).decoder.bind (fun d =>
          (init env V tl0 w sv ii lsm ln ef).criterion_att_nlu.bind
            (fun crit =>
              some (crit
                  (d eo eol
                    (add_sos_eos ys ((V : Int) - 1) ((V : Int) - 1) ii).1
                    (yl.map (fun n => n + 1)))
                  (add_sos_eos ys ((V : Int) - 1) ((V : Int) - 1) ii).2,
                env.th_accuracy
                  (d eo eol
                    (add_sos_eos ys ((V : Int) - 1) ((V : Int) - 1) ii).1
                    (yl.map (fun n => n + 1))) V
                  (add_sos_eos ys ((V : Int) - 1) ((V : Int) - 1) ii).2
                  ii)))) := by
  refine ⟨by simp [init], by simp [init], ?_, ?_, ?_⟩
  · intro src_text src_text_lengths
    cases hf : env.frontend <;>
      simp [ESPnetNLUModel.extract_feats, init, hf]
  · intro eo eol ys yl
    by_cases h0 : 0 < w <;>
      simp [ESPnetNLUModel.calc_nlu_token_loss, init, h0]
  · intro eo eol ys yl
    by_cases h1 : w < 1 <;>
      simp [ESPnetNLUModel.calc_nlu_att_loss, init, h1, Option.bind]

end ESPnetNLU
